import Mathlib

/-!
Verification of the Meteora DLMM instruction-assembly components of the
governance-ui repository, as a shallow embedding in Lean 4.

Conventions of the embedding:
* Remote collaborators (the DLMM SDK, the RPC connection, the form
  validator) are modelled as environment records of oracles; a call that
  can throw returns an Except value whose error carries the message.
* JavaScript async functions become total Lean functions; a thrown
  exception inside a try block is an Except.error flowing to the
  catch branch, exactly mirroring the control flow of the source.
* Public keys are represented by their canonical base58 string; the
  PublicKey constructor of the web3 library is modelled by parsePublicKey,
  which checks that the string decodes (base58) to exactly 32 bytes.
* Machine floating point (parseFloat and the product with Math.pow) is
  modelled by correctly-rounded binary64 arithmetic over the rationals
  (round to nearest, ties to even, 53-bit significand), valid for the
  mid-range magnitudes occurring here; BN truncation is integer
  truncation toward zero with the 2 to the 53 size assertion of bn.js.
* Every embedded operation additionally returns the ordered list of
  network calls it performed, so that statements about which remote
  operations happen, and with which arguments, can be made directly.
-/

deriving instance DecidableEq for Except

/-- Base58 alphabet used by the bs58 library: the alphabet excludes
0, O, I and l. -/
def base58Chars : List Char :=
  "123456789ABCDEFGHJKLMNPQRSTUVWXYZabcdefghijkmnopqrstuvwxyz".toList

/-- Index of a character in a character list, or none when absent. -/
def base58DigitAux : List Char → Nat → Char → Option Nat
  | [], _, _ => none
  | d :: ds, i, c => if d = c then some i else base58DigitAux ds (i + 1) c

/-- Value of one base58 digit character, none for a character outside the
alphabet. -/
def base58Digit (c : Char) : Option Nat := base58DigitAux base58Chars 0 c

/-- Whether a character belongs to the base58 alphabet. -/
def isBase58Char (c : Char) : Bool := (base58Digit c).isSome

/-- Accumulating numeric value of a base58 digit string, none as soon as a
character falls outside the alphabet; mirrors the digit loop of the
base-x decoder used by bs58. -/
def base58ValueAux : Nat → List Char → Option Nat
  | acc, [] => some acc
  | acc, c :: cs =>
    match base58Digit c with
    | none => none
    | some d => base58ValueAux (acc * 58 + d) cs

/-- Number of leading one characters of a base58 string; the base-x
decoder emits one zero byte for each. -/
def countLeadingOnes : List Char → Nat
  | c :: cs => if c = '1' then countLeadingOnes cs + 1 else 0
  | [] => 0

/-- Big-endian byte expansion of a natural number, empty for zero;
fuel-based structural recursion so that the kernel can evaluate it. -/
def natToBytesFuel : Nat → Nat → List Nat
  | 0, _ => []
  | _, 0 => []
  | fuel + 1, n + 1 => natToBytesFuel fuel ((n + 1) / 256) ++ [(n + 1) % 256]

/-- Big-endian byte expansion of a natural number, empty for zero. -/
def natToBytes (n : Nat) : List Nat := natToBytesFuel n n

/-- Model of bs58.decode: none exactly when some character is outside the
alphabet (the decoder throws there), otherwise the byte list consisting
of one zero byte per leading one character followed by the big-endian
bytes of the numeric value of the digits. -/
def bs58Decode (s : String) : Option (List Nat) :=
  match base58ValueAux 0 s.data with
  | none => none
  | some v => some (List.replicate (countLeadingOnes s.data) 0 ++ natToBytes v)

/-- Model of the isBase58 helper of the CreatePool component: true exactly
when bs58.decode does not throw. -/
def isBase58 (s : String) : Bool := (bs58Decode s).isSome

/-- Public keys are represented by their canonical base58 string. -/
abbrev Pubkey := String

/-- Model of the web3 PublicKey constructor on a string: succeeds exactly
when the string decodes under base58 to exactly 32 bytes, returning the
string itself as the canonical key. -/
def parsePublicKey (s : String) : Option Pubkey :=
  match bs58Decode s with
  | none => none
  | some bytes => if bytes.length = 32 then some s else none

/-- Model of the is-pubkey yup test used by the RemoveLiquidity schema:
true exactly when the PublicKey constructor does not throw. -/
def removeLiquidityPubkeyTest (s : String) : Bool := (parsePublicKey s).isSome

/- Floating point model: correctly rounded binary64 over the rationals,
adequate for the mid-range magnitudes arising in amount scaling. The
rational operations are written through the normalized smart constructor
mkRat so that every definition evaluates by kernel reduction. -/

/-- Product of two rationals. -/
def qmul (a b : ℚ) : ℚ := mkRat (a.num * b.num) (a.den * b.den)

/-- Difference of two rationals. -/
def qsub (a b : ℚ) : ℚ :=
  mkRat (a.num * (b.den : ℤ) - b.num * (a.den : ℤ)) (a.den * b.den)

/-- Negation of a rational. -/
def qneg (a : ℚ) : ℚ := mkRat (-a.num) a.den

/-- Strict order of two rationals, by cross multiplication with the
positive denominators. -/
def qltb (a b : ℚ) : Bool := a.num * (b.den : ℤ) < b.num * (a.den : ℤ)

/-- Order of two rationals, by cross multiplication with the positive
denominators. -/
def qleb (a b : ℚ) : Bool := a.num * (b.den : ℤ) ≤ b.num * (a.den : ℤ)

/-- Floor of a nonnegative rational as an integer (also truncation toward
zero for any sign, matching the word construction of bn.js). -/
def ratFloorPos (q : ℚ) : ℤ := Int.tdiv q.num (q.den : ℤ)

/-- Fuel-based base-two logarithm on naturals, structural so the kernel
evaluates it. -/
def natLog2F : Nat → Nat → Nat
  | 0, _ => 0
  | fuel + 1, n => if 2 ≤ n then natLog2F fuel (n / 2) + 1 else 0

/-- Base-two logarithm on naturals (zero on zero and one). -/
def natLog2 (n : Nat) : Nat := natLog2F n n

/-- Integer power of two as a rational, for either sign of the exponent. -/
def pow2z : ℤ → ℚ
  | Int.ofNat n => Rat.ofInt ((2 : ℤ) ^ n)
  | Int.negSucc n => mkRat 1 (2 ^ (n + 1))

/-- Ceiling of the base-two logarithm of a rational greater than one. -/
def ratCeilLog2 (r : ℚ) : Nat :=
  let f := natLog2 (ratFloorPos r).toNat
  if Rat.ofInt ((2 : ℤ) ^ f) = r then f else f + 1

/-- Inverse of a positive rational. -/
def qinvPos (q : ℚ) : ℚ := mkRat (q.den : ℤ) q.num.toNat

/-- Floor of the base-two logarithm of a positive rational. -/
def ratFloorLog2 (q : ℚ) : ℤ :=
  if (q.den : ℤ) ≤ q.num then Int.ofNat (natLog2 (ratFloorPos q).toNat)
  else -Int.ofNat (ratCeilLog2 (qinvPos q))

/-- Round a nonnegative rational to the nearest integer, ties to even. -/
def roundHalfEvenPos (x : ℚ) : ℤ :=
  let f := ratFloorPos x
  let r := qsub x (Rat.ofInt f)
  if qltb r (mkRat 1 2) then f
  else if qltb (mkRat 1 2) r then f + 1
  else if f % 2 = 0 then f else f + 1

/-- Nearest binary64 value of a positive rational: 53-bit significand,
round to nearest with ties to even (mid-range, no overflow or subnormal
handling, which never arises for the values of this development). -/
def jsToDoublePos (a : ℚ) : ℚ :=
  let e : ℤ := ratFloorLog2 a - 52
  qmul (Rat.ofInt (roundHalfEvenPos (qmul a (pow2z (-e))))) (pow2z e)

/-- Nearest binary64 value of a rational; model of the value a JavaScript
number holds for that exact quantity. -/
def jsToDouble (q : ℚ) : ℚ :=
  if q.num = 0 then 0
  else if q.num < 0 then qneg (jsToDoublePos (qneg q))
  else jsToDoublePos q

/-- Binary64 multiplication: IEEE 754 product is the correctly rounded
exact product. -/
def jsMul (x y : ℚ) : ℚ := jsToDouble (qmul x y)

/-- Value of Math.pow of ten and a decimals count as a binary64 number. -/
def pow10Double (d : Nat) : ℚ := jsToDouble (Rat.ofInt ((10 : ℤ) ^ d))

/-- Truncation toward zero of a rational to an integer, as performed by
the word construction of the bn.js constructor on a number. -/
def bnTrunc (q : ℚ) : ℤ := Int.tdiv q.num (q.den : ℤ)

/-- Model of the bn.js constructor on a JavaScript number: asserts the
magnitude is below 2 to the 53 and truncates toward zero. -/
def bnOfNumber (q : ℚ) : Except String ℤ :=
  if q.num.natAbs < 2 ^ 53 * q.den then Except.ok (bnTrunc q)
  else Except.error "Assertion failed"

/-- Amount scaling of the AddLiquidity component, source line
new BN(parseFloat(form.quoteToken) * Math.pow(10, mintDecimals)):
the entered decimal string denotes an exact rational, parseFloat yields
its nearest binary64 value, the product with the power of ten is a
binary64 product, and the BN constructor truncates toward zero. -/
def computeBaseUnitAmount (amount : ℚ) (d : Nat) : Except String ℤ :=
  bnOfNumber (jsMul (jsToDouble amount) (pow10Double d))

/-- Statement of the specification for the same computation: the exact
product of the amount and the power of ten, truncated toward zero. -/
def exactBaseUnitAmount (amount : ℚ) (d : Nat) : ℤ :=
  bnTrunc (qmul amount (Rat.ofInt ((10 : ℤ) ^ d)))

/- Data model shared by the instruction components. -/

/-- Governance reference held by a governed account: presence of the
nested account record and the governance public key. -/
structure GovernanceRef where
  hasAccount : Bool
  pubkey : Pubkey
deriving DecidableEq

/-- Governed account selected in a form; the governance field may be
absent. -/
structure GovernedAccount where
  governance : Option GovernanceRef
deriving DecidableEq

/-- Wallet as seen through useWalletOnePointOh. -/
structure Wallet where
  connected : Bool
  publicKey : Option Pubkey
deriving DecidableEq

/-- Connected flag of an optional wallet. -/
def walletConnected : Option Wallet → Bool
  | some w => w.connected
  | none => false

/-- Signing public key of an optional wallet. -/
def walletPublicKey : Option Wallet → Option Pubkey
  | some w => w.publicKey
  | none => none

/-- Optional chain form.governedAccount?.governance of the source. -/
def govOf (ga : Option GovernedAccount) : Option GovernanceRef :=
  ga.bind (fun a => a.governance)

/-- Truthiness of form.governedAccount?.governance?.account. -/
def govAccountPresent (ga : Option GovernedAccount) : Bool :=
  match govOf ga with
  | some g => g.hasAccount
  | none => false

/-- On-chain instruction: owning program and opaque data bytes. -/
structure Instruction where
  programId : Pubkey
  data : List Nat
deriving DecidableEq

/-- Transaction as an ordered instruction list. -/
structure Transaction where
  instructions : List Instruction
deriving DecidableEq

/-- Duck-typed SDK return value: a single transaction object or an array
of transactions; the components normalize with Array.isArray. -/
inductive TxOrTxs where
  | single : Transaction → TxOrTxs
  | array : List Transaction → TxOrTxs
deriving DecidableEq

/-- Normalization txArray = Array.isArray(t) ? t : [t] of the source. -/
def TxOrTxs.toList : TxOrTxs → List Transaction
  | .single t => [t]
  | .array ts => ts

/-- Program id of the compute budget program. -/
def computeBudgetProgramId : Pubkey :=
  "ComputeBudget111111111111111111111111111111"

/-- Rendering of a byte list used inside the serialization model. -/
def natListRepr : List Nat → String
  | [] => ""
  | n :: ns => toString n ++ "," ++ natListRepr ns

/-- Model of serializeInstructionToBase64 of the spl-governance library:
an injective printer whose output is never the empty string, standing for
the base64 rendering of the borsh-serialized instruction. -/
def serializeInstructionToBase64 (ix : Instruction) : String :=
  String.mk ('b' :: (ix.programId ++ ":" ++ natListRepr ix.data).data)

/-- Result record returned by every getInstruction of the components. -/
structure UiInstruction where
  serializedInstruction : String
  additionalSerializedInstructions : List String := []
  isValid : Bool
  governance : Option GovernanceRef
  prerequisiteInstructions : List Instruction := []
  chunkBy : Option Nat := none
deriving DecidableEq

/-- Failure record { serializedInstruction: empty, isValid: false,
governance: form.governedAccount?.governance } shared by the components. -/
def invalidResult (gov : Option GovernanceRef) : UiInstruction :=
  { serializedInstruction := "", isValid := false, governance := gov }

/-- Account info shape relevant to getMintDecimals: either no value, a
value whose data is not of the parsed shape, or parsed data whose info
may or may not carry a decimals field. -/
inductive AccountInfoResult where
  | noValue
  | noParsed
  | parsed : Option Nat → AccountInfoResult
deriving DecidableEq

/-- Strategy parameter record passed to the SDK liquidity operations. -/
structure StrategyParams where
  minBinId : Int
  maxBinId : Int
  strategyType : Int
  singleSidedX : Bool
deriving DecidableEq

/-- Argument record of dlmmPool.addLiquidityByStrategy. -/
structure AddLiqArgs where
  positionPubKey : Pubkey
  user : Pubkey
  totalXAmount : Int
  totalYAmount : Int
  strategy : StrategyParams
deriving DecidableEq

/-- Argument record of initializePositionAndAddLiquidityByStrategy; the
slippage field is absent in the older component variant. -/
structure InitPosArgs where
  positionPubKey : Pubkey
  user : Pubkey
  totalXAmount : Int
  totalYAmount : Int
  slippage : Option ℚ
  strategy : StrategyParams
deriving DecidableEq

/-- Argument record of dlmmPool.removeLiquidity; bps is optional because
the first RemoveLiquidity variant passes bpsToRemove[0], which is
undefined when the bin list is empty. -/
structure RemoveLiqArgs where
  position : Pubkey
  user : Pubkey
  binIds : List Int
  bps : Option Int
  shouldClaimAndClose : Bool
deriving DecidableEq

/-- User position returned by getPositionsByUserAndLbPair: its address and
the bin ids of its on-chain bin data. -/
structure UserPosition where
  publicKey : Pubkey
  positionBinData : List Int
deriving DecidableEq

/-- Active bin of a pool: id and price. -/
structure ActiveBin where
  binId : Int
  price : ℚ
deriving DecidableEq

/-- Network call performed by a component, recorded in order. -/
inductive NetCall where
  | dlmmCreate : Pubkey → NetCall
  | refetchStates : NetCall
  | getActiveBin : NetCall
  | getBinsBetweenMinAndMaxPrice : ℚ → ℚ → NetCall
  | getParsedAccountInfo : Pubkey → NetCall
  | getMinimumBalanceForRentExemption : Nat → NetCall
  | addLiquidityByStrategy : AddLiqArgs → NetCall
  | initializePositionAndAddLiquidityByStrategy : InitPosArgs → NetCall
  | getPositionsByUserAndLbPair : Pubkey → NetCall
  | removeLiquidity : RemoveLiqArgs → NetCall
deriving DecidableEq

/- GetMintDecimals.tsx -/

/-- Environment of getMintDecimals: the parsed account info lookup of the
RPC connection, which may throw. -/
structure MintLookupEnv where
  getParsedAccountInfo : Pubkey → Except String AccountInfoResult

/-- Embedding of getMintDecimals of GetMintDecimals.tsx: constructs the
PublicKey (throwing on an invalid address is caught by the surrounding
try), queries parsed account info, returns the parsed decimals when the
data has the parsed info shape and the field is present, and returns the
fallback 6 in every other case, including a thrown lookup. -/
def getMintDecimals (env : MintLookupEnv) (mintAddress : String) :
    Nat × List NetCall :=
  match parsePublicKey mintAddress with
  | none => (6, [])
  | some pk =>
    match env.getParsedAccountInfo pk with
    | Except.error _ => (6, [NetCall.getParsedAccountInfo pk])
    | Except.ok res =>
      match res with
      | AccountInfoResult.parsed (some d) => (d, [NetCall.getParsedAccountInfo pk])
      | AccountInfoResult.parsed none => (6, [NetCall.getParsedAccountInfo pk])
      | AccountInfoResult.noValue => (6, [NetCall.getParsedAccountInfo pk])
      | AccountInfoResult.noParsed => (6, [NetCall.getParsedAccountInfo pk])

/- AddLiquidity.tsx -/

/-- Form state of the AddLiquidity component. The token amount fields hold
the exact rational denoted by the entered decimal string; parseFloat is
applied inside computeBaseUnitAmount. -/
structure MeteoraAddLiquidityForm where
  governedAccount : Option GovernedAccount
  dlmmPoolAddress : String
  positionPubkey : String
  quoteToken : ℚ
  baseToken : ℚ
  strategy : Int
deriving DecidableEq

/-- Environment of the AddLiquidity component. The validator verdict
models validateInstruction of utils/instructionTools, which the
specification describes as a synchronous pass or fail collaborator; the
remaining fields are the remote SDK and RPC operations, each allowed to
throw. -/
structure AddLiquidityEnv where
  validateResult : Bool
  dlmmCreate : Pubkey → Except String Unit
  refetchStates : Except String Unit
  getActiveBin : Except String ActiveBin
  mint : MintLookupEnv
  addLiquidityByStrategy : AddLiqArgs → Except String TxOrTxs

/-- Embedding of the try block of getInstruction of AddLiquidity.tsx,
lines 104 to 172 of the source: pool key construction, DLMM.create,
refetchStates, active bin query, mint decimals lookup keyed by the pool
address, amount scaling, position key construction, the SDK call, the
array normalization with its two emptiness checks, and serialization of
the first transaction instructions. -/
def addLiquidityTry (env : AddLiquidityEnv) (userPk : Pubkey)
    (form : MeteoraAddLiquidityForm) :
    Except String (String × List String) × List NetCall :=
  match parsePublicKey form.dlmmPoolAddress with
  | none => (Except.error "Invalid public key input", [])
  | some poolPk =>
    match env.dlmmCreate poolPk with
    | Except.error e => (Except.error e, [NetCall.dlmmCreate poolPk])
    | Except.ok _ =>
      match env.refetchStates with
      | Except.error e =>
        (Except.error e, [NetCall.dlmmCreate poolPk, NetCall.refetchStates])
      | Except.ok _ =>
        match env.getActiveBin with
        | Except.error e =>
          (Except.error e,
            [NetCall.dlmmCreate poolPk, NetCall.refetchStates,
              NetCall.getActiveBin])
        | Except.ok activeBin =>
          let minBinId := activeBin.binId - 10
          let maxBinId := activeBin.binId + 10
          let md := getMintDecimals env.mint poolPk
          let mintDecimals := md.1
          let tr0 :=
            [NetCall.dlmmCreate poolPk, NetCall.refetchStates,
              NetCall.getActiveBin] ++ md.2
          match computeBaseUnitAmount form.quoteToken mintDecimals with
          | Except.error e => (Except.error e, tr0)
          | Except.ok quoteTokenAmount =>
            match computeBaseUnitAmount form.baseToken mintDecimals with
            | Except.error e => (Except.error e, tr0)
            | Except.ok baseTokenAmount =>
              if form.positionPubkey = "" then
                (Except.error
                  "Position Pubkey is required and must be a valid string",
                  tr0)
              else
                match parsePublicKey form.positionPubkey with
                | none => (Except.error "Invalid public key input", tr0)
                | some positionPk =>
                  let args : AddLiqArgs :=
                    { positionPubKey := positionPk, user := userPk,
                      totalXAmount := quoteTokenAmount,
                      totalYAmount := baseTokenAmount,
                      strategy :=
                        { minBinId := minBinId, maxBinId := maxBinId,
                          strategyType := form.strategy,
                          singleSidedX := false } }
                  let tr1 := tr0 ++ [NetCall.addLiquidityByStrategy args]
                  match env.addLiquidityByStrategy args with
                  | Except.error e => (Except.error e, tr1)
                  | Except.ok txOrTxs =>
                    match txOrTxs.toList with
                    | [] =>
                      (Except.error "No transactions returned by addLiquidity.",
                        tr1)
                    | tx0 :: _ =>
                      match tx0.instructions with
                      | [] =>
                        (Except.error
                          "No instructions in the add liquidity transaction.",
                          tr1)
                      | ix0 :: rest =>
                        (Except.ok
                          (serializeInstructionToBase64 ix0,
                            rest.map serializeInstructionToBase64),
                          tr1)

/-- Embedding of getInstruction of AddLiquidity.tsx: the validator verdict
and the governed account, wallet key and connected checks guard the try
block; a thrown error inside the try block yields the failure record,
success yields the serialized instructions with isValid true. -/
def addLiquidityGetInstruction (env : AddLiquidityEnv)
    (wallet : Option Wallet) (form : MeteoraAddLiquidityForm) :
    UiInstruction × List NetCall :=
  let gov := govOf form.governedAccount
  if env.validateResult && govAccountPresent form.governedAccount
      && (walletPublicKey wallet).isSome && walletConnected wallet then
    match walletPublicKey wallet with
    | some userPk =>
      match addLiquidityTry env userPk form with
      | (Except.error _, tr) => (invalidResult gov, tr)
      | (Except.ok (s, adds), tr) =>
        ({ serializedInstruction := s,
           additionalSerializedInstructions := adds,
           isValid := true, governance := gov }, tr)
    | none => (invalidResult gov, [])
  else (invalidResult gov, [])

/- CreatePosition.tsx, first component of the file -/

/-- Form state of the first CreatePosition variant. -/
structure MeteoraCreatePositionFormV1 where
  governedAccount : Option GovernedAccount
  dlmmPoolAddress : String
  positionPubkey : String
  tokenAmount : ℚ
  quoteToken : ℚ
  baseToken : ℚ
  strategy : Int
deriving DecidableEq

/-- Schema declared for the MeteoraCreatePositionForm shape (the yup
schema of the deprecated sibling variant, CreatePool.tsx lines 199 to
206): governed account present, pool address and position pubkey
non-empty, token amounts at least zero; the strategy field is always
present in the typed model. -/
def meteoraCreatePositionSchemaValid (f : MeteoraCreatePositionFormV1) : Bool :=
  f.governedAccount.isSome && !(f.dlmmPoolAddress = "")
    && !(f.positionPubkey = "") && (0 ≤ f.quoteToken.num) && (0 ≤ f.baseToken.num)

/-- Environment of the first CreatePosition variant. It has no validator
field because that getInstruction never consults the validator. -/
structure CreatePositionV1Env where
  freshPositionPubkey : Pubkey
  dlmmCreate : Pubkey → Except String Unit
  refetchStates : Except String Unit
  getActiveBin : Except String ActiveBin
  fromPricePerLamport : ℚ → ℚ
  initializePositionAndAddLiquidityByStrategy :
    InitPosArgs → Except String TxOrTxs

/-- Embedding of the try block of getInstruction of the first
CreatePosition variant, lines 67 to 109: pool resolution, active bin
query, price conversion, BN construction of the entered token amount and
of the converted price, their product as the Y amount, and the SDK call
with the governance public key as user. -/
def createPositionV1Try (env : CreatePositionV1Env) (userGovPk : Pubkey)
    (form : MeteoraCreatePositionFormV1) :
    Except String (String × List String) × List NetCall :=
  match parsePublicKey form.dlmmPoolAddress with
  | none => (Except.error "Invalid public key input", [])
  | some poolPk =>
    match env.dlmmCreate poolPk with
    | Except.error e => (Except.error e, [NetCall.dlmmCreate poolPk])
    | Except.ok _ =>
      match env.refetchStates with
      | Except.error e =>
        (Except.error e, [NetCall.dlmmCreate poolPk, NetCall.refetchStates])
      | Except.ok _ =>
        match env.getActiveBin with
        | Except.error e =>
          (Except.error e,
            [NetCall.dlmmCreate poolPk, NetCall.refetchStates,
              NetCall.getActiveBin])
        | Except.ok activeBin =>
          let tr0 :=
            [NetCall.dlmmCreate poolPk, NetCall.refetchStates,
              NetCall.getActiveBin]
          let minBinId := activeBin.binId - 10
          let maxBinId := activeBin.binId + 10
          let activeBinPricePerToken := env.fromPricePerLamport activeBin.price
          match bnOfNumber form.tokenAmount with
          | Except.error e => (Except.error e, tr0)
          | Except.ok totalXAmount =>
            match bnOfNumber activeBinPricePerToken with
            | Except.error e => (Except.error e, tr0)
            | Except.ok priceBn =>
              let totalYAmount := totalXAmount * priceBn
              let args : InitPosArgs :=
                { positionPubKey := env.freshPositionPubkey,
                  user := userGovPk,
                  totalXAmount := totalXAmount,
                  totalYAmount := totalYAmount,
                  slippage := none,
                  strategy :=
                    { minBinId := minBinId, maxBinId := maxBinId,
                      strategyType := form.strategy, singleSidedX := false } }
              let tr1 :=
                tr0 ++ [NetCall.initializePositionAndAddLiquidityByStrategy args]
              match env.initializePositionAndAddLiquidityByStrategy args with
              | Except.error e => (Except.error e, tr1)
              | Except.ok txOrTxs =>
                match txOrTxs.toList with
                | [] =>
                  (Except.error "No transactions returned by create position.",
                    tr1)
                | tx0 :: _ =>
                  match tx0.instructions with
                  | [] =>
                    (Except.error
                      "No instructions in the create position transaction.",
                      tr1)
                  | ix0 :: rest =>
                    (Except.ok
                      (serializeInstructionToBase64 ix0,
                        rest.map serializeInstructionToBase64),
                      tr1)

/-- Embedding of getInstruction of the first CreatePosition variant,
lines 55 to 125: no validator call; only the governed account, wallet key
and connected checks guard the try block. -/
def createPositionV1GetInstruction (env : CreatePositionV1Env)
    (wallet : Option Wallet) (form : MeteoraCreatePositionFormV1) :
    UiInstruction × List NetCall :=
  let gov := govOf form.governedAccount
  if govAccountPresent form.governedAccount
      && (walletPublicKey wallet).isSome && walletConnected wallet then
    match govOf form.governedAccount with
    | some g =>
      match createPositionV1Try env g.pubkey form with
      | (Except.error _, tr) => (invalidResult gov, tr)
      | (Except.ok (s, adds), tr) =>
        ({ serializedInstruction := s,
           additionalSerializedInstructions := adds,
           isValid := true, governance := gov }, tr)
    | none => (invalidResult gov, [])
  else (invalidResult gov, [])

/- CreatePosition.tsx, second component of the file (the variant that
filters compute budget instructions) -/

/-- Form state of the second CreatePosition variant; the strategy field
holds the selected strategy value. -/
structure MeteoraCreatePositionFormV2 where
  governedAccount : Option GovernedAccount
  dlmmPoolAddress : String
  baseTokenAmount : ℚ
  quoteTokenAmount : ℚ
  strategy : Int
  autofill : Bool
  minPrice : ℚ
  maxPrice : ℚ
  slippage : ℚ
  singleSidedX : Bool
deriving DecidableEq

/-- Program id of the system program, owner of the prerequisite
create-account instruction. -/
def systemProgramId : Pubkey := "11111111111111111111111111111111"

/-- Environment of the second CreatePosition variant. The bin range query
returns the bin ids of binRange.bins; lbPairBinStep zero models a falsy
or absent bin step; the SDK build returns a single transaction object,
as the source accesses its instructions field directly. -/
structure CreatePositionV2Env where
  validateResult : Bool
  dlmmCreate : Pubkey → Except String Unit
  getBinsBetweenMinAndMaxPrice : ℚ → ℚ → Except String (List Int)
  getActiveBin : Except String ActiveBin
  lbPairBinStep : Nat
  getMinimumBalanceForRentExemption : Nat → Except String Nat
  freshPositionPubkey : Pubkey
  initializePositionAndAddLiquidityByStrategy :
    InitPosArgs → Except String Transaction

/-- Embedding of the try block of getInstruction of the second
CreatePosition variant, lines 456 to 557: pool resolution, bin range
query between the price bounds, active bin query, bin step and price
range checks, BN construction of the amounts, the rent exemption query
for the prerequisite create-account instruction, the SDK call, the
compute budget filter and the emptiness check on the filtered list, and
serialization of every remaining instruction. -/
def createPositionV2Try (env : CreatePositionV2Env) (userPk : Pubkey)
    (form : MeteoraCreatePositionFormV2) :
    Except String (String × List String × List Instruction) × List NetCall :=
  match parsePublicKey form.dlmmPoolAddress with
  | none => (Except.error "Invalid public key input", [])
  | some poolPk =>
    match env.dlmmCreate poolPk with
    | Except.error e => (Except.error e, [NetCall.dlmmCreate poolPk])
    | Except.ok _ =>
      match env.getBinsBetweenMinAndMaxPrice form.minPrice form.maxPrice with
      | Except.error e =>
        (Except.error e,
          [NetCall.dlmmCreate poolPk,
            NetCall.getBinsBetweenMinAndMaxPrice form.minPrice form.maxPrice])
      | Except.ok binRange =>
        let tr0 :=
          [NetCall.dlmmCreate poolPk,
            NetCall.getBinsBetweenMinAndMaxPrice form.minPrice form.maxPrice]
        match env.getActiveBin with
        | Except.error e => (Except.error e, tr0 ++ [NetCall.getActiveBin])
        | Except.ok activeBin =>
          let tr1 := tr0 ++ [NetCall.getActiveBin]
          if env.lbPairBinStep = 0 then
            (Except.error "Bin step not available", tr1)
          else if qleb form.maxPrice form.minPrice then
            (Except.error "Min price must be less than max price", tr1)
          else
            let minBinId := (binRange.head?).getD (activeBin.binId - 15)
            let maxBinId := (binRange.getLast?).getD (activeBin.binId + 15)
            match bnOfNumber form.baseTokenAmount with
            | Except.error e => (Except.error e, tr1)
            | Except.ok totalXAmount =>
              match bnOfNumber form.quoteTokenAmount with
              | Except.error e => (Except.error e, tr1)
              | Except.ok totalYAmount =>
                match env.getMinimumBalanceForRentExemption 200 with
                | Except.error e =>
                  (Except.error e,
                    tr1 ++ [NetCall.getMinimumBalanceForRentExemption 200])
                | Except.ok _ =>
                  let tr2 :=
                    tr1 ++ [NetCall.getMinimumBalanceForRentExemption 200]
                  let prereq : Instruction :=
                    { programId := systemProgramId, data := [] }
                  let args : InitPosArgs :=
                    { positionPubKey := env.freshPositionPubkey,
                      user := userPk,
                      totalXAmount := totalXAmount,
                      totalYAmount := totalYAmount,
                      slippage := some form.slippage,
                      strategy :=
                        { minBinId := minBinId, maxBinId := maxBinId,
                          strategyType := form.strategy,
                          singleSidedX := form.singleSidedX } }
                  let tr3 :=
                    tr2 ++
                      [NetCall.initializePositionAndAddLiquidityByStrategy args]
                  match env.initializePositionAndAddLiquidityByStrategy args with
                  | Except.error e => (Except.error e, tr3)
                  | Except.ok tx =>
                    match tx.instructions.filter
                        (fun ix => !(ix.programId = computeBudgetProgramId)) with
                    | [] =>
                      (Except.error "No instructions returned by create position.",
                        tr3)
                    | ix0 :: rest =>
                      (Except.ok
                        (serializeInstructionToBase64 ix0,
                          rest.map serializeInstructionToBase64, [prereq]),
                        tr3)

/-- Embedding of getInstruction of the second CreatePosition variant:
validator verdict and the governed account, wallet key and connected
checks guard the try block; success carries the serialized filtered
instructions, the prerequisite instructions and chunkBy one. -/
def createPositionV2GetInstruction (env : CreatePositionV2Env)
    (wallet : Option Wallet) (form : MeteoraCreatePositionFormV2) :
    UiInstruction × List NetCall :=
  let gov := govOf form.governedAccount
  if env.validateResult && govAccountPresent form.governedAccount
      && (walletPublicKey wallet).isSome && walletConnected wallet then
    match walletPublicKey wallet with
    | some userPk =>
      match createPositionV2Try env userPk form with
      | (Except.error _, tr) => (invalidResult gov, tr)
      | (Except.ok (s, adds, prereqs), tr) =>
        ({ serializedInstruction := s,
           additionalSerializedInstructions := adds,
           isValid := true, governance := gov,
           prerequisiteInstructions := prereqs,
           chunkBy := some 1 }, tr)
    | none => (invalidResult gov, [])
  else (invalidResult gov, [])

/- RemoveLiquidity.tsx, first component of the file -/

/-- Form state of the first RemoveLiquidity variant; positionPubkey may be
undefined (its initial state), and binIds and liquiditiesBpsToRemove are
form fields never read by getInstruction. -/
structure MeteoraRemoveLiquidityFormV1 where
  governedAccount : Option GovernedAccount
  positionPubkey : Option String
  binIds : List Int
  liquiditiesBpsToRemove : List Nat
  dlmmPoolAddress : String
  removeAll : Bool
deriving DecidableEq

/-- Environment of the first RemoveLiquidity variant. -/
structure RemoveLiquidityV1Env where
  validateResult : Bool
  dlmmCreate : Pubkey → Except String Unit
  freshPositionPubkey : Pubkey
  getPositionsByUserAndLbPair : Pubkey → Except String (List UserPosition)
  removeLiquidity : RemoveLiqArgs → Except String TxOrTxs

/-- Embedding of the try block of getInstruction of the first
RemoveLiquidity variant, lines 93 to 151. The find over user positions
evaluates its predicate per element, so the PublicKey construction of the
entered position pubkey throws only when the list is non-empty and the
pubkey string is present but invalid; an absent pubkey or an empty list
leads to the position-not-found error. The bps argument of the SDK call
is the head of a constant 10000 list of the length of the bin ids, hence
absent when the found position has no bin data. On success the source
serializes the first instruction and then returns the empty string as
serializedInstruction with isValid true. -/
def removeLiquidityV1Try (env : RemoveLiquidityV1Env) (userPk : Pubkey)
    (gov : Option GovernanceRef) (form : MeteoraRemoveLiquidityFormV1) :
    Except String UiInstruction × List NetCall :=
  match parsePublicKey form.dlmmPoolAddress with
  | none => (Except.error "Invalid public key input", [])
  | some poolPk =>
    match env.dlmmCreate poolPk with
    | Except.error e => (Except.error e, [NetCall.dlmmCreate poolPk])
    | Except.ok _ =>
      match env.getPositionsByUserAndLbPair userPk with
      | Except.error e =>
        (Except.error e,
          [NetCall.dlmmCreate poolPk,
            NetCall.getPositionsByUserAndLbPair userPk])
      | Except.ok userPositions =>
        let tr0 :=
          [NetCall.dlmmCreate poolPk,
            NetCall.getPositionsByUserAndLbPair userPk]
        match form.positionPubkey with
        | none =>
          (Except.error "Position not found among user positions", tr0)
        | some posStr =>
          match userPositions with
          | [] =>
            (Except.error "Position not found among user positions", tr0)
          | _ :: _ =>
            match parsePublicKey posStr with
            | none => (Except.error "Invalid public key input", tr0)
            | some posPk =>
              match userPositions.find? (fun p => p.publicKey = posPk) with
              | none =>
                (Except.error "Position not found among user positions", tr0)
              | some foundPos =>
                let binIds := foundPos.positionBinData
                let bpsToRemove := binIds.map (fun _ => (10000 : Int))
                let args : RemoveLiqArgs :=
                  { position := env.freshPositionPubkey,
                    user := userPk,
                    binIds := binIds,
                    bps := bpsToRemove.head?,
                    shouldClaimAndClose := form.removeAll }
                let tr1 := tr0 ++ [NetCall.removeLiquidity args]
                match env.removeLiquidity args with
                | Except.error e => (Except.error e, tr1)
                | Except.ok txOrTxs =>
                  match txOrTxs.toList with
                  | [] =>
                    (Except.error "No transactions returned by removeLiquidity",
                      tr1)
                  | tx0 :: _ =>
                    match tx0.instructions with
                    | [] =>
                      (Except.error
                        "No instructions in the remove liquidity transaction.",
                        tr1)
                    | ix0 :: _ =>
                      let serialized := serializeInstructionToBase64 ix0
                      let _ := serialized
                      (Except.ok
                        { serializedInstruction := "",
                          isValid := true, governance := gov },
                        tr1)

/-- Embedding of getInstruction of the first RemoveLiquidity variant,
lines 73 to 156: validator verdict and the governed account, wallet key
and connected checks guard the try block; a thrown error yields the
failure record, and the success record is the one built inside the try
block, whose serializedInstruction is the empty string. -/
def removeLiquidityV1GetInstruction (env : RemoveLiquidityV1Env)
    (wallet : Option Wallet) (form : MeteoraRemoveLiquidityFormV1) :
    UiInstruction × List NetCall :=
  let gov := govOf form.governedAccount
  if env.validateResult && govAccountPresent form.governedAccount
      && (walletPublicKey wallet).isSome && walletConnected wallet then
    match walletPublicKey wallet with
    | some userPk =>
      match removeLiquidityV1Try env userPk gov form with
      | (Except.error _, tr) => (invalidResult gov, tr)
      | (Except.ok r, tr) => (r, tr)
    | none => (invalidResult gov, [])
  else (invalidResult gov, [])

/- Concrete fixtures used by the closed theorems and witnesses. -/

/-- Valid 32-byte key: thirty-two one characters decode to thirty-two
zero bytes. -/
def pkA : Pubkey := "11111111111111111111111111111111"

/-- Valid 32-byte key distinct from pkA. -/
def pkB : Pubkey := "11111111111111111111111111111112"

/-- Governance reference with the nested account present. -/
def fixGovernance : GovernanceRef := { hasAccount := true, pubkey := pkA }

/-- Governed account selection carrying fixGovernance. -/
def fixGovAccount : Option GovernedAccount :=
  some { governance := some fixGovernance }

/-- Connected wallet with a signing key. -/
def fixWallet : Option Wallet := some { connected := true, publicKey := some pkA }

/-- Wallet present but not connected. -/
def fixWalletDisconnected : Option Wallet :=
  some { connected := false, publicKey := some pkA }

/-- Ordinary instruction owned by a program other than the compute budget
program. -/
def sampleInstruction : Instruction := { programId := pkB, data := [1] }

/-- Compute budget instruction as injected by the SDK. -/
def cbInstruction : Instruction :=
  { programId := computeBudgetProgramId, data := [9] }

/-- Mint lookup answering with parsed decimals six. -/
def okMintEnv : MintLookupEnv :=
  { getParsedAccountInfo := fun _ => Except.ok (AccountInfoResult.parsed (some 6)) }

/-- Mint lookup answering with parsed decimals nine. -/
def mint9Env : MintLookupEnv :=
  { getParsedAccountInfo := fun _ => Except.ok (AccountInfoResult.parsed (some 9)) }

/-- Mint lookup that throws. -/
def errMintEnv : MintLookupEnv :=
  { getParsedAccountInfo := fun _ => Except.error "network unavailable" }

/-- Length of the bs58 decoding of a string, zero when decoding throws. -/
def bs58DecodeLen (s : String) : Nat :=
  match bs58Decode s with
  | some bytes => bytes.length
  | none => 0

/-- AddLiquidity form whose fields all satisfy the schema. -/
def fixAddLiqForm : MeteoraAddLiquidityForm :=
  { governedAccount := fixGovAccount, dlmmPoolAddress := pkA,
    positionPubkey := pkB, quoteToken := 0, baseToken := 0, strategy := 6 }

/-- AddLiquidity environment in which every remote step succeeds and the
SDK returns one transaction with one ordinary instruction. -/
def okAddLiqEnv : AddLiquidityEnv :=
  { validateResult := true,
    dlmmCreate := fun _ => Except.ok (),
    refetchStates := Except.ok (),
    getActiveBin := Except.ok { binId := 0, price := 1 },
    mint := okMintEnv,
    addLiquidityByStrategy := fun _ =>
      Except.ok (TxOrTxs.single { instructions := [sampleInstruction] }) }

/-- AddLiquidity environment in which pool resolution throws. -/
def errAddLiqEnv : AddLiquidityEnv :=
  { validateResult := true,
    dlmmCreate := fun _ => Except.error "pool not found",
    refetchStates := Except.ok (),
    getActiveBin := Except.ok { binId := 0, price := 1 },
    mint := okMintEnv,
    addLiquidityByStrategy := fun _ =>
      Except.ok (TxOrTxs.single { instructions := [sampleInstruction] }) }

/-- AddLiquidity environment in which the SDK returns a transaction whose
first instruction is a compute budget instruction. -/
def cbAddLiqEnv : AddLiquidityEnv :=
  { validateResult := true,
    dlmmCreate := fun _ => Except.ok (),
    refetchStates := Except.ok (),
    getActiveBin := Except.ok { binId := 0, price := 1 },
    mint := okMintEnv,
    addLiquidityByStrategy := fun _ =>
      Except.ok (TxOrTxs.single
        { instructions := [cbInstruction, sampleInstruction] }) }

/-- CreatePosition form rejected by the schema of its form shape: the
position pubkey is empty although the schema requires it. -/
def fixCp1Form : MeteoraCreatePositionFormV1 :=
  { governedAccount := fixGovAccount, dlmmPoolAddress := pkA,
    positionPubkey := "", tokenAmount := 1, quoteToken := 0, baseToken := 0,
    strategy := 0 }

/-- First-variant CreatePosition environment in which every remote step
succeeds. -/
def okCp1Env : CreatePositionV1Env :=
  { freshPositionPubkey := pkB,
    dlmmCreate := fun _ => Except.ok (),
    refetchStates := Except.ok (),
    getActiveBin := Except.ok { binId := 0, price := 1 },
    fromPricePerLamport := fun p => p,
    initializePositionAndAddLiquidityByStrategy := fun _ =>
      Except.ok (TxOrTxs.single { instructions := [sampleInstruction] }) }

/-- First-variant CreatePosition environment in which the active bin query
throws. -/
def errCp1Env : CreatePositionV1Env :=
  { freshPositionPubkey := pkB,
    dlmmCreate := fun _ => Except.ok (),
    refetchStates := Except.ok (),
    getActiveBin := Except.error "state unavailable",
    fromPricePerLamport := fun p => p,
    initializePositionAndAddLiquidityByStrategy := fun _ =>
      Except.ok (TxOrTxs.single { instructions := [sampleInstruction] }) }

/-- Second-variant CreatePosition form with a proper price range. -/
def fixCp2Form : MeteoraCreatePositionFormV2 :=
  { governedAccount := fixGovAccount, dlmmPoolAddress := pkA,
    baseTokenAmount := 1, quoteTokenAmount := 2, strategy := 0,
    autofill := true, minPrice := 1, maxPrice := 2, slippage := 2,
    singleSidedX := false }

/-- Second-variant CreatePosition environment in which every remote step
succeeds and the SDK transaction carries a compute budget instruction
followed by an ordinary instruction. -/
def okCp2Env : CreatePositionV2Env :=
  { validateResult := true,
    dlmmCreate := fun _ => Except.ok (),
    getBinsBetweenMinAndMaxPrice := fun _ _ => Except.ok [3, 4, 5],
    getActiveBin := Except.ok { binId := 0, price := 1 },
    lbPairBinStep := 25,
    getMinimumBalanceForRentExemption := fun _ => Except.ok 100,
    freshPositionPubkey := pkB,
    initializePositionAndAddLiquidityByStrategy := fun _ =>
      Except.ok { instructions := [cbInstruction, sampleInstruction] } }

/-- RemoveLiquidity form naming the position pkB; its binIds and
liquiditiesBpsToRemove fields are populated to exhibit that they do not
influence the SDK call. -/
def fixRemForm : MeteoraRemoveLiquidityFormV1 :=
  { governedAccount := fixGovAccount, positionPubkey := some pkB,
    binIds := [7, 8], liquiditiesBpsToRemove := [1, 2],
    dlmmPoolAddress := pkA, removeAll := true }

/-- RemoveLiquidity environment in which the user owns the position pkB
with one populated bin and every remote step succeeds. -/
def okRemEnv : RemoveLiquidityV1Env :=
  { validateResult := true,
    dlmmCreate := fun _ => Except.ok (),
    freshPositionPubkey := pkA,
    getPositionsByUserAndLbPair := fun _ =>
      Except.ok [{ publicKey := pkB, positionBinData := [5] }],
    removeLiquidity := fun _ =>
      Except.ok (TxOrTxs.single { instructions := [sampleInstruction] }) }

/-- RemoveLiquidity environment identical to okRemEnv except that the
found position has no bin data. -/
def emptyBinsRemEnv : RemoveLiquidityV1Env :=
  { validateResult := true,
    dlmmCreate := fun _ => Except.ok (),
    freshPositionPubkey := pkA,
    getPositionsByUserAndLbPair := fun _ =>
      Except.ok [{ publicKey := pkB, positionBinData := [] }],
    removeLiquidity := fun _ =>
      Except.ok (TxOrTxs.single { instructions := [sampleInstruction] }) }

/-- Argument record of the removeLiquidity call performed in the
emptyBinsRemEnv run: empty bin ids and an absent bps argument. -/
def emptyBinsArgs : RemoveLiqArgs :=
  { position := pkA, user := pkA, binIds := [], bps := none,
    shouldClaimAndClose := true }

/-- Argument record of the addLiquidityByStrategy call performed in the
okAddLiqEnv run on fixAddLiqForm. -/
def fixAddLiqArgs : AddLiqArgs :=
  { positionPubKey := pkB, user := pkA, totalXAmount := 0, totalYAmount := 0,
    strategy :=
      { minBinId := -10, maxBinId := 10, strategyType := 6,
        singleSidedX := false } }

/-- Argument record of the initializePositionAndAddLiquidityByStrategy
call performed in the okCp2Env run on fixCp2Form. -/
def fixInitPosArgs : InitPosArgs :=
  { positionPubKey := pkB, user := pkA, totalXAmount := 1, totalYAmount := 2,
    slippage := some 2,
    strategy :=
      { minBinId := 3, maxBinId := 5, strategyType := 0,
        singleSidedX := false } }

/- Helper lemmas shared by the claim theorems. -/

/-- The base58 digit loop succeeds exactly when every character lies in
the alphabet. -/
theorem base58ValueAux_isSome :
    ∀ (l : List Char) (acc : Nat),
      (base58ValueAux acc l).isSome = l.all isBase58Char := by
  intro l
  induction l with
  | nil => intro acc; rfl
  | cons c cs ih =>
    intro acc
    unfold base58ValueAux
    cases h : base58Digit c with
    | none => simp [List.all_cons, isBase58Char, h]
    | some d => simp [List.all_cons, isBase58Char, h, ih]

/-- A successfully parsed public key string is returned unchanged. -/
theorem parsePublicKey_eq_self {s t : String}
    (h : parsePublicKey s = some t) : t = s := by
  unfold parsePublicKey at h
  cases hd : bs58Decode s with
  | none => rw [hd] at h; cases h
  | some bytes =>
    rw [hd] at h
    by_cases hl : bytes.length = 32
    · simp [hl] at h
      exact h.symm
    · simp [hl] at h

/-- The serialization model never produces the empty string. -/
theorem serializeInstructionToBase64_ne_empty (ix : Instruction) :
    serializeInstructionToBase64 ix ≠ "" := by
  unfold serializeInstructionToBase64
  intro h
  have hdata := congrArg String.data h
  simp at hdata

/-- Network trace of a mint decimals lookup on a string that parses to
itself: exactly one parsed account info query. -/
theorem getMintDecimals_trace {menv : MintLookupEnv} {pk : Pubkey}
    (h : parsePublicKey pk = some pk) :
    (getMintDecimals menv pk).2 = [NetCall.getParsedAccountInfo pk] := by
  unfold getMintDecimals
  rw [h]
  repeat' split
  all_goals simp_all

/- Claim theorems. -/

/-- C1: the first RemoveLiquidity variant reports success with an empty
encoded instruction set. In a run in which validation passes, the wallet
is connected, the pool resolves, the entered position is found with one
populated bin and the SDK returns a transaction with an instruction, the
returned record has isValid true and yet its serializedInstruction is the
empty string: the source serializes the first instruction into a local
variable at line 143 and returns the empty literal at line 148. -/
theorem claim1_removeLiquidity_success_empty_serialized :
    (removeLiquidityV1GetInstruction okRemEnv fixWallet fixRemForm).1.isValid
      = true ∧
    (removeLiquidityV1GetInstruction okRemEnv fixWallet
      fixRemForm).1.serializedInstruction = "" := by
  decide

/-- C3 counterexample: the first CreatePosition variant reports a valid
submission for a form state that fails schema validation. The fixture
form has an empty position pubkey, which the schema declared for this
form shape rejects, yet getInstruction never invokes the validator and
returns isValid true when the remote steps succeed. -/
theorem claim3_counterexample :
    meteoraCreatePositionSchemaValid fixCp1Form = false ∧
    (createPositionV1GetInstruction okCp1Env fixWallet fixCp1Form).1.isValid
      = true := by
  decide

/-- C5 counterexample: for the amount 29 over 100 (the decimal string
0.29) and two decimals, the computed base-unit amount is 28, while the
exact product truncated toward zero is 29: the binary64 product
parseFloat of 0.29 times 100 falls just below 29, so the claim that the
computed amount always equals the exact truncation fails. -/
theorem claim5_counterexample :
    computeBaseUnitAmount (mkRat 29 100) 2 = Except.ok 28 ∧
    exactBaseUnitAmount (mkRat 29 100) 2 = 29 := by
  decide

/-- C5 (amended): the computed base-unit amount is the binary64 product
parseFloat of the amount times ten to the decimals, truncated toward
zero; in particular for the amount 1.5 and six decimals the value is
exactly 1500000 and agrees with the exact truncation there. -/
theorem claim5_binary64_scaling :
    computeBaseUnitAmount (mkRat 3 2) 6 = Except.ok 1500000 ∧
    exactBaseUnitAmount (mkRat 3 2) 6 = 1500000 := by
  decide

/-- C7 counterexample: a successful AddLiquidity submission whose primary
serialized instruction is a compute budget instruction. The AddLiquidity
variant serializes the SDK instructions without any compute budget
filter, so when the SDK transaction starts with a compute budget
instruction that instruction is reported in the result. -/
theorem claim7_counterexample :
    (addLiquidityGetInstruction cbAddLiqEnv fixWallet fixAddLiqForm).1.isValid
      = true ∧
    (addLiquidityGetInstruction cbAddLiqEnv fixWallet
      fixAddLiqForm).1.serializedInstruction
      = serializeInstructionToBase64 cbInstruction ∧
    cbInstruction.programId = computeBudgetProgramId := by
  decide

/-- C8 counterexample: the string z consists only of base58 alphabet
characters, yet the address validation of the RemoveLiquidity form
rejects it, because it decodes to a single byte rather than the 32 bytes
the PublicKey constructor requires. -/
theorem claim8_counterexample :
    "z".data.all isBase58Char = true ∧
    removeLiquidityPubkeyTest "z" = false := by
  decide

/-- C10 counterexample: a RemoveLiquidity run that reaches the SDK call
with a found position whose bin data is empty passes an absent bps
argument rather than 10000 basis points: bpsToRemove is the empty list
and its first element is undefined. -/
theorem claim10_counterexample :
    NetCall.removeLiquidity emptyBinsArgs ∈
      (removeLiquidityV1GetInstruction emptyBinsRemEnv fixWallet
        fixRemForm).2 ∧
    emptyBinsArgs.bps ≠ some 10000 := by
  decide

/-- C6: getMintDecimals is total by its type, falls back to six decimals
when the address does not parse, when the account info lookup throws and
when the returned data lacks a parsed decimals field, and returns the
parsed decimals value when it is present. -/
theorem claim6_getMintDecimals_fallback (env : MintLookupEnv) (addr : String) :
    (parsePublicKey addr = none → (getMintDecimals env addr).1 = 6) ∧
    ∀ pk, parsePublicKey addr = some pk →
      (∀ e, env.getParsedAccountInfo pk = Except.error e →
        (getMintDecimals env addr).1 = 6) ∧
      (env.getParsedAccountInfo pk = Except.ok AccountInfoResult.noValue →
        (getMintDecimals env addr).1 = 6) ∧
      (env.getParsedAccountInfo pk = Except.ok AccountInfoResult.noParsed →
        (getMintDecimals env addr).1 = 6) ∧
      (env.getParsedAccountInfo pk = Except.ok (AccountInfoResult.parsed none) →
        (getMintDecimals env addr).1 = 6) ∧
      (∀ d, env.getParsedAccountInfo pk
          = Except.ok (AccountInfoResult.parsed (some d)) →
        (getMintDecimals env addr).1 = d) := by
  constructor
  · intro h
    simp [getMintDecimals, h]
  · intro pk hpk
    refine ⟨?_, ?_, ?_, ?_, ?_⟩
    · intro e he
      simp [getMintDecimals, hpk, he]
    · intro he
      simp [getMintDecimals, hpk, he]
    · intro he
      simp [getMintDecimals, hpk, he]
    · intro he
      simp [getMintDecimals, hpk, he]
    · intro d hd
      simp [getMintDecimals, hpk, hd]

/-- C4: when the wallet is not connected or exposes no signing key, the
AddLiquidity and CreatePosition getInstruction operations return the
failure record with an empty network trace: no pool resolution, state
query or SDK call is performed. -/
theorem claim4_wallet_guard (envA : AddLiquidityEnv)
    (envC : CreatePositionV1Env) (wallet : Option Wallet)
    (formA : MeteoraAddLiquidityForm) (formC : MeteoraCreatePositionFormV1)
    (h : walletConnected wallet = false ∨ walletPublicKey wallet = none) :
    addLiquidityGetInstruction envA wallet formA
      = (invalidResult (govOf formA.governedAccount), []) ∧
    createPositionV1GetInstruction envC wallet formC
      = (invalidResult (govOf formC.governedAccount), []) := by
  cases h with
  | inl hc =>
    constructor
    · simp [addLiquidityGetInstruction, hc]
    · simp [createPositionV1GetInstruction, hc]
  | inr hp =>
    constructor
    · simp [addLiquidityGetInstruction, hp]
    · simp [createPositionV1GetInstruction, hp]

/-- C2: the AddLiquidity and CreatePosition getInstruction operations
always resolve to a result record, and any error thrown inside the
assembly try block yields the failure record with isValid false and the
empty serialized instruction. -/
theorem claim2_no_exception_escapes (envA : AddLiquidityEnv)
    (envC : CreatePositionV1Env) (wallet : Option Wallet)
    (formA : MeteoraAddLiquidityForm) (formC : MeteoraCreatePositionFormV1) :
    (∃ r tr, addLiquidityGetInstruction envA wallet formA = (r, tr)) ∧
    (∃ r tr, createPositionV1GetInstruction envC wallet formC = (r, tr)) ∧
    (∀ userPk e tr, walletPublicKey wallet = some userPk →
      addLiquidityTry envA userPk formA = (Except.error e, tr) →
      (addLiquidityGetInstruction envA wallet formA).1
        = invalidResult (govOf formA.governedAccount)) ∧
    (∀ g e tr, govOf formC.governedAccount = some g →
      createPositionV1Try envC g.pubkey formC = (Except.error e, tr) →
      (createPositionV1GetInstruction envC wallet formC).1
        = invalidResult (govOf formC.governedAccount)) := by
  refine ⟨⟨_, _, rfl⟩, ⟨_, _, rfl⟩, ?_, ?_⟩
  · intro userPk e tr hw htry
    unfold addLiquidityGetInstruction
    by_cases hg : (envA.validateResult
        && govAccountPresent formA.governedAccount
        && (walletPublicKey wallet).isSome && walletConnected wallet) = true
    · simp [hg, hw, htry]
      try (split <;> rfl)
    · simp [hg]
  · intro g e tr hgov htry
    unfold createPositionV1GetInstruction
    by_cases hg : (govAccountPresent formC.governedAccount
        && (walletPublicKey wallet).isSome && walletConnected wallet) = true
    · simp [hg, hgov, htry]
    · simp [hg]

/-- C8 (amended): the isBase58 validator used by the CreatePool component
accepts exactly the strings all of whose characters lie in the base58
alphabet, while the pubkey validator of the RemoveLiquidity schema
additionally requires the decoded value to be exactly 32 bytes, so a
base58-shaped string of another decoded length fails it. -/
theorem claim8_validation_characterization (s : String) :
    isBase58 s = s.data.all isBase58Char ∧
    removeLiquidityPubkeyTest s
      = (isBase58 s && (bs58DecodeLen s == 32)) := by
  constructor
  · have hall := base58ValueAux_isSome s.data 0
    unfold isBase58 bs58Decode
    cases hv : base58ValueAux 0 s.data with
    | none => rw [hv] at hall; simpa using hall
    | some v => rw [hv] at hall; simpa using hall
  · unfold removeLiquidityPubkeyTest parsePublicKey isBase58 bs58DecodeLen
    cases hd : bs58Decode s with
    | none => simp
    | some bytes =>
      by_cases hl : bytes.length = 32
      · simp [hl]
      · simp [hl]

/-- Characterization of a removeLiquidity SDK call appearing in the trace
of the first RemoveLiquidity variant: its bps argument is the head of the
constant 10000 list over its bin ids, and its bin ids are the on-chain
bin data of a position found among the user positions returned by the
environment. -/
theorem removeLiquidityV1Try_mem_args {env : RemoveLiquidityV1Env}
    {userPk : Pubkey} {gov : Option GovernanceRef}
    {form : MeteoraRemoveLiquidityFormV1}
    {out : Except String UiInstruction × List NetCall}
    (heq : removeLiquidityV1Try env userPk gov form = out)
    {args : RemoveLiqArgs} (h : NetCall.removeLiquidity args ∈ out.2) :
    args.bps = (args.binIds.map (fun _ => (10000 : Int))).head? ∧
    ∃ positions pos,
      env.getPositionsByUserAndLbPair userPk = Except.ok positions ∧
      pos ∈ positions ∧ args.binIds = pos.positionBinData := by
  simp only [removeLiquidityV1Try] at heq
  repeat' split at heq
  all_goals subst heq
  all_goals simp at h
  all_goals subst h
  all_goals refine ⟨by simp, ?_⟩
  all_goals
    exact ⟨_, _, by assumption,
      List.mem_of_find?_eq_some (by assumption), rfl⟩

/-- C10 (amended): whenever a run of the first RemoveLiquidity variant
reaches the removeLiquidity SDK call, the bin ids passed are the on-chain
bin data of the found user position and the bps argument is the head of
the constant 10000 list over those bin ids, hence 10000 basis points
whenever the position has bin data and absent when it has none; the
binIds and liquiditiesBpsToRemove form fields never influence the run. -/
theorem claim10_removal_args (env : RemoveLiquidityV1Env)
    (wallet : Option Wallet) (form : MeteoraRemoveLiquidityFormV1)
    (args : RemoveLiqArgs)
    (h : NetCall.removeLiquidity args ∈
      (removeLiquidityV1GetInstruction env wallet form).2) :
    args.bps = (args.binIds.map (fun _ => (10000 : Int))).head? ∧
    (args.binIds ≠ [] → args.bps = some 10000) ∧
    (∃ userPk positions pos,
      walletPublicKey wallet = some userPk ∧
      env.getPositionsByUserAndLbPair userPk = Except.ok positions ∧
      pos ∈ positions ∧ args.binIds = pos.positionBinData) ∧
    (∀ binIds2 bps2,
      removeLiquidityV1GetInstruction env wallet
        { form with binIds := binIds2, liquiditiesBpsToRemove := bps2 }
        = removeLiquidityV1GetInstruction env wallet form) := by
  have hind : ∀ binIds2 bps2,
      removeLiquidityV1GetInstruction env wallet
        { form with binIds := binIds2, liquiditiesBpsToRemove := bps2 }
        = removeLiquidityV1GetInstruction env wallet form := by
    intro binIds2 bps2
    cases form
    rfl
  suffices hmain : args.bps = (args.binIds.map (fun _ => (10000 : Int))).head? ∧
      ∃ userPk positions pos,
        walletPublicKey wallet = some userPk ∧
        env.getPositionsByUserAndLbPair userPk = Except.ok positions ∧
        pos ∈ positions ∧ args.binIds = pos.positionBinData by
    refine ⟨hmain.1, ?_, hmain.2, hind⟩
    intro hne
    rw [hmain.1]
    cases hb : args.binIds with
    | nil => exact absurd hb hne
    | cons b bs => simp
  unfold removeLiquidityV1GetInstruction at h
  by_cases hg : (env.validateResult && govAccountPresent form.governedAccount
      && (walletPublicKey wallet).isSome && walletConnected wallet) = true
  · simp only [hg, if_true] at h
    cases hw : walletPublicKey wallet with
    | none => rw [hw] at h; simp at h
    | some userPk =>
      rw [hw] at h
      dsimp only at h
      rcases htry : removeLiquidityV1Try env userPk
          (govOf form.governedAccount) form with ⟨res, tr⟩
      rw [htry] at h
      have hmem : NetCall.removeLiquidity args ∈ tr := by
        cases res with
        | error e => simpa using h
        | ok r => simpa using h
      have := removeLiquidityV1Try_mem_args htry hmem
      exact ⟨this.1, userPk, by
        rcases this.2 with ⟨positions, pos, h1, h2, h3⟩
        exact ⟨positions, pos, rfl, h1, h2, h3⟩⟩
  · simp [hg] at h

/-- The trace of a mint decimals lookup never contains an SDK liquidity
call: it consists of at most one parsed account info query. -/
theorem addLiquidity_call_not_in_mint_trace (menv : MintLookupEnv)
    (s : String) (args : AddLiqArgs) :
    NetCall.addLiquidityByStrategy args ∉ (getMintDecimals menv s).2 := by
  unfold getMintDecimals
  repeat' split
  all_goals simp

/-- A successful AddLiquidity try block implies that the pool address
parsed, the pool resolved, and the SDK call returned a first transaction
with at least one instruction. -/
theorem addLiquidityTry_ok_conditions {env : AddLiquidityEnv}
    {userPk : Pubkey} {form : MeteoraAddLiquidityForm}
    {v : String × List String} {tr : List NetCall}
    (heq : addLiquidityTry env userPk form = (Except.ok v, tr)) :
    (∃ poolPk, parsePublicKey form.dlmmPoolAddress = some poolPk ∧
      env.dlmmCreate poolPk = Except.ok ()) ∧
    (∃ args res tx0 txs, env.addLiquidityByStrategy args = Except.ok res ∧
      res.toList = tx0 :: txs ∧ tx0.instructions ≠ []) := by
  simp only [addLiquidityTry] at heq
  repeat' split at heq
  all_goals injection heq with h1 h2
  all_goals try (injection h1)
  exact ⟨⟨_, by assumption, by assumption⟩,
    _, _, _, _, by assumption, by assumption, by simp [*]⟩

/-- A successful try block of the first CreatePosition variant implies
pool resolution and a first SDK transaction with at least one
instruction. -/
theorem createPositionV1Try_ok_conditions {env : CreatePositionV1Env}
    {userGovPk : Pubkey} {form : MeteoraCreatePositionFormV1}
    {v : String × List String} {tr : List NetCall}
    (heq : createPositionV1Try env userGovPk form = (Except.ok v, tr)) :
    (∃ poolPk, parsePublicKey form.dlmmPoolAddress = some poolPk ∧
      env.dlmmCreate poolPk = Except.ok ()) ∧
    (∃ args res tx0 txs,
      env.initializePositionAndAddLiquidityByStrategy args = Except.ok res ∧
      res.toList = tx0 :: txs ∧ tx0.instructions ≠ []) := by
  simp only [createPositionV1Try] at heq
  repeat' split at heq
  all_goals injection heq with h1 h2
  all_goals try (injection h1)
  exact ⟨⟨_, by assumption, by assumption⟩,
    _, _, _, _, by assumption, by assumption, by simp [*]⟩

/-- Characterization of an addLiquidityByStrategy call appearing in the
trace of the AddLiquidity try block: the pool address parsed, the X
amount is the scaled quote token amount and the Y amount the scaled base
token amount, both scaled with the decimals value the mint lookup yields
on the pool address, and the user is the wallet key. -/
theorem addLiquidityTry_mem_args {env : AddLiquidityEnv} {userPk : Pubkey}
    {form : MeteoraAddLiquidityForm}
    {out : Except String (String × List String) × List NetCall}
    (heq : addLiquidityTry env userPk form = out) {args : AddLiqArgs}
    (h : NetCall.addLiquidityByStrategy args ∈ out.2) :
    ∃ poolPk, parsePublicKey form.dlmmPoolAddress = some poolPk ∧
      computeBaseUnitAmount form.quoteToken
        (getMintDecimals env.mint poolPk).1 = Except.ok args.totalXAmount ∧
      computeBaseUnitAmount form.baseToken
        (getMintDecimals env.mint poolPk).1 = Except.ok args.totalYAmount ∧
      args.user = userPk := by
  simp only [addLiquidityTry] at heq
  repeat' split at heq
  all_goals subst heq
  all_goals simp [addLiquidity_call_not_in_mint_trace] at h
  all_goals subst h
  all_goals exact ⟨_, by assumption, by assumption, by assumption, rfl⟩

/-- Amounts of an initializePositionAndAddLiquidityByStrategy call in the
trace of the second CreatePosition variant: X is the base token amount
and Y the quote token amount of the form. -/
theorem createPositionV2Try_mem_args {env : CreatePositionV2Env}
    {userPk : Pubkey} {form : MeteoraCreatePositionFormV2}
    {out : Except String (String × List String × List Instruction) × List NetCall}
    (heq : createPositionV2Try env userPk form = out) {args2 : InitPosArgs}
    (h : NetCall.initializePositionAndAddLiquidityByStrategy args2 ∈ out.2) :
    bnOfNumber form.baseTokenAmount = Except.ok args2.totalXAmount ∧
    bnOfNumber form.quoteTokenAmount = Except.ok args2.totalYAmount ∧
    args2.user = userPk := by
  simp only [createPositionV2Try] at heq
  repeat' split at heq
  all_goals subst heq
  all_goals simp at h
  all_goals subst h
  all_goals exact ⟨by assumption, by assumption, rfl⟩

/-- A successful try block of the second CreatePosition variant yields
exactly the serializations of a list of instructions none of which is
owned by the compute budget program. -/
theorem createPositionV2Try_ok_filtered {env : CreatePositionV2Env}
    {userPk : Pubkey} {form : MeteoraCreatePositionFormV2}
    {v : String × List String × List Instruction} {tr : List NetCall}
    (heq : createPositionV2Try env userPk form = (Except.ok v, tr)) :
    ∃ ixs : List Instruction,
      v.1 :: v.2.1 = ixs.map serializeInstructionToBase64 ∧
      ∀ ix ∈ ixs, ix.programId ≠ computeBudgetProgramId := by
  simp only [createPositionV2Try] at heq
  repeat' split at heq
  all_goals injection heq with h1 h2
  all_goals first
    | (injection h1 with h1)
    | injection h1
  all_goals subst h1
  rename_i ix0 rest hfilter
  refine ⟨ix0 :: rest, by simp, ?_⟩
  intro ix hix
  rw [← hfilter] at hix
  have hpred := List.of_mem_filter hix
  simpa using hpred

/-- C3 (amended): in the AddLiquidity component a result with isValid true
requires that the validator passed, the pool address parsed and the pool
resolved, and the SDK call returned a first transaction with at least one
instruction; the first CreatePosition variant never invokes the
validator, and its isValid true requires only the latter conditions. -/
theorem claim3_validity_requires_conditions (env : AddLiquidityEnv)
    (envC : CreatePositionV1Env) (wallet : Option Wallet)
    (form : MeteoraAddLiquidityForm) (formC : MeteoraCreatePositionFormV1) :
    ((addLiquidityGetInstruction env wallet form).1.isValid = true →
      env.validateResult = true ∧
      (∃ poolPk, parsePublicKey form.dlmmPoolAddress = some poolPk ∧
        env.dlmmCreate poolPk = Except.ok ()) ∧
      (∃ args res tx0 txs, env.addLiquidityByStrategy args = Except.ok res ∧
        res.toList = tx0 :: txs ∧ tx0.instructions ≠ [])) ∧
    ((createPositionV1GetInstruction envC wallet formC).1.isValid = true →
      (∃ poolPk, parsePublicKey formC.dlmmPoolAddress = some poolPk ∧
        envC.dlmmCreate poolPk = Except.ok ()) ∧
      (∃ args res tx0 txs,
        envC.initializePositionAndAddLiquidityByStrategy args
          = Except.ok res ∧
        res.toList = tx0 :: txs ∧ tx0.instructions ≠ [])) := by
  constructor
  · intro h
    unfold addLiquidityGetInstruction at h
    by_cases hg : (env.validateResult && govAccountPresent form.governedAccount
        && (walletPublicKey wallet).isSome && walletConnected wallet) = true
    · have hv : env.validateResult = true := by
        simp only [Bool.and_eq_true] at hg
        exact hg.1.1.1
      rw [if_pos hg] at h
      cases hw : walletPublicKey wallet with
      | none => rw [hw] at h; simp [invalidResult] at h
      | some userPk =>
        rw [hw] at h
        dsimp only at h
        rcases htry : addLiquidityTry env userPk form with ⟨res, tr⟩
        rw [htry] at h
        cases res with
        | error e => simp [invalidResult] at h
        | ok v =>
          have hc := addLiquidityTry_ok_conditions htry
          exact ⟨hv, hc.1, hc.2⟩
    · rw [if_neg hg] at h
      simp [invalidResult] at h
  · intro h
    unfold createPositionV1GetInstruction at h
    by_cases hg : (govAccountPresent formC.governedAccount
        && (walletPublicKey wallet).isSome && walletConnected wallet) = true
    · rw [if_pos hg] at h
      cases hgov : govOf formC.governedAccount with
      | none => rw [hgov] at h; simp [invalidResult] at h
      | some g =>
        rw [hgov] at h
        dsimp only at h
        rcases htry : createPositionV1Try envC g.pubkey formC with ⟨res, tr⟩
        rw [htry] at h
        cases res with
        | error e => simp [invalidResult] at h
        | ok v =>
          have hc := createPositionV1Try_ok_conditions htry
          exact ⟨hc.1, hc.2⟩
    · rw [if_neg hg] at h
      simp [invalidResult] at h

/-- C7 (amended): the second CreatePosition variant filters compute budget
instructions, so every successful result of it reports exactly the
serializations of instructions none of which belongs to the compute
budget program. The unfiltered AddLiquidity variant does not share this
property, as the recorded counterexample shows. -/
theorem claim7_filtered_variant_no_compute_budget (env : CreatePositionV2Env)
    (wallet : Option Wallet) (form : MeteoraCreatePositionFormV2)
    (h : (createPositionV2GetInstruction env wallet form).1.isValid = true) :
    ∃ ixs : List Instruction,
      (createPositionV2GetInstruction env wallet
          form).1.serializedInstruction ::
        (createPositionV2GetInstruction env wallet
          form).1.additionalSerializedInstructions
        = ixs.map serializeInstructionToBase64 ∧
      ∀ ix ∈ ixs, ix.programId ≠ computeBudgetProgramId := by
  unfold createPositionV2GetInstruction at h ⊢
  by_cases hg : (env.validateResult && govAccountPresent form.governedAccount
      && (walletPublicKey wallet).isSome && walletConnected wallet) = true
  · rw [if_pos hg] at h ⊢
    cases hw : walletPublicKey wallet with
    | none =>
      try rw [hw] at h
      simp [invalidResult] at h
    | some userPk =>
      try rw [hw] at h
      try rw [hw]
      try dsimp only at h
      try dsimp only
      rcases htry : createPositionV2Try env userPk form with ⟨res, tr⟩
      try rw [htry] at h
      try rw [htry]
      cases res with
      | error e => simp [invalidResult] at h
      | ok v =>
        rcases v with ⟨s, adds, prereqs⟩
        try dsimp only at h
        try dsimp only
        have hf := createPositionV2Try_ok_filtered htry
        simpa using hf
  · rw [if_neg hg] at h
    simp [invalidResult] at h

/-- C9: every addLiquidityByStrategy call of the AddLiquidity component
passes as totalXAmount the scaled quote token field and as totalYAmount
the scaled base token field, both scaled with the single decimals value
the mint lookup yields when invoked on the pool address; the second
CreatePosition variant follows the opposite convention, passing the base
token amount as X and the quote token amount as Y. -/
theorem claim9_amount_argument_mapping (env : AddLiquidityEnv)
    (env2 : CreatePositionV2Env) (wallet wallet2 : Option Wallet)
    (form : MeteoraAddLiquidityForm) (form2 : MeteoraCreatePositionFormV2) :
    (∀ args, NetCall.addLiquidityByStrategy args ∈
        (addLiquidityGetInstruction env wallet form).2 →
      ∃ poolPk, parsePublicKey form.dlmmPoolAddress = some poolPk ∧
        computeBaseUnitAmount form.quoteToken
          (getMintDecimals env.mint poolPk).1 = Except.ok args.totalXAmount ∧
        computeBaseUnitAmount form.baseToken
          (getMintDecimals env.mint poolPk).1 = Except.ok args.totalYAmount) ∧
    (∀ args2, NetCall.initializePositionAndAddLiquidityByStrategy args2 ∈
        (createPositionV2GetInstruction env2 wallet2 form2).2 →
      bnOfNumber form2.baseTokenAmount = Except.ok args2.totalXAmount ∧
      bnOfNumber form2.quoteTokenAmount = Except.ok args2.totalYAmount) := by
  constructor
  · intro args h
    unfold addLiquidityGetInstruction at h
    by_cases hg : (env.validateResult && govAccountPresent form.governedAccount
        && (walletPublicKey wallet).isSome && walletConnected wallet) = true
    · rw [if_pos hg] at h
      cases hw : walletPublicKey wallet with
      | none =>
        try rw [hw] at h
        simp at h
      | some userPk =>
        try rw [hw] at h
        try dsimp only at h
        rcases htry : addLiquidityTry env userPk form with ⟨res, tr⟩
        try rw [htry] at h
        have hmem : NetCall.addLiquidityByStrategy args ∈ tr := by
          cases res with
          | error e => simpa using h
          | ok v =>
            rcases v with ⟨s, adds⟩
            simpa using h
        rcases addLiquidityTry_mem_args htry hmem with
          ⟨poolPk, h1, h2, h3, h4⟩
        exact ⟨poolPk, h1, h2, h3⟩
    · rw [if_neg hg] at h
      simp at h
  · intro args2 h
    unfold createPositionV2GetInstruction at h
    by_cases hg : (env2.validateResult
        && govAccountPresent form2.governedAccount
        && (walletPublicKey wallet2).isSome && walletConnected wallet2) = true
    · rw [if_pos hg] at h
      cases hw : walletPublicKey wallet2 with
      | none =>
        try rw [hw] at h
        simp at h
      | some userPk =>
        try rw [hw] at h
        try dsimp only at h
        rcases htry : createPositionV2Try env2 userPk form2 with ⟨res, tr⟩
        try rw [htry] at h
        have hmem : NetCall.initializePositionAndAddLiquidityByStrategy args2
            ∈ tr := by
          cases res with
          | error e => simpa using h
          | ok v =>
            rcases v with ⟨s, adds, prereqs⟩
            simpa using h
        rcases createPositionV2Try_mem_args htry hmem with
          ⟨h1, h2, h3⟩
        exact ⟨h1, h2⟩
    · rw [if_neg hg] at h
      simp at h

/- Witness theorems: each applies its claim theorem at concrete inputs. -/

/-- Witness for C2: in a run whose pool resolution throws the AddLiquidity
result is the failure record, and in a run whose active bin query throws
the CreatePosition result is the failure record. -/
theorem claim2_witness :
    (addLiquidityGetInstruction errAddLiqEnv fixWallet fixAddLiqForm).1
      = invalidResult (govOf fixAddLiqForm.governedAccount) ∧
    (createPositionV1GetInstruction errCp1Env fixWallet fixCp1Form).1
      = invalidResult (govOf fixCp1Form.governedAccount) :=
  ⟨(claim2_no_exception_escapes errAddLiqEnv errCp1Env fixWallet
      fixAddLiqForm fixCp1Form).2.2.1 pkA "pool not found"
      [NetCall.dlmmCreate pkA] (by decide) (by decide),
   (claim2_no_exception_escapes errAddLiqEnv errCp1Env fixWallet
      fixAddLiqForm fixCp1Form).2.2.2 fixGovernance "state unavailable"
      [NetCall.dlmmCreate pkA, NetCall.refetchStates, NetCall.getActiveBin]
      (by decide) (by decide)⟩

/-- Witness for C3: instantiating the amended validity conditions on a
successful AddLiquidity run. -/
theorem claim3_witness :
    okAddLiqEnv.validateResult = true ∧
    (∃ poolPk, parsePublicKey fixAddLiqForm.dlmmPoolAddress = some poolPk ∧
      okAddLiqEnv.dlmmCreate poolPk = Except.ok ()) ∧
    (∃ args res tx0 txs,
      okAddLiqEnv.addLiquidityByStrategy args = Except.ok res ∧
      res.toList = tx0 :: txs ∧ tx0.instructions ≠ []) :=
  (claim3_validity_requires_conditions okAddLiqEnv okCp1Env fixWallet
    fixAddLiqForm fixCp1Form).1 (by decide)

/-- Witness for C4: a disconnected wallet yields the failure record with
an empty network trace in both components. -/
theorem claim4_witness :
    addLiquidityGetInstruction okAddLiqEnv fixWalletDisconnected
        fixAddLiqForm
      = (invalidResult (govOf fixAddLiqForm.governedAccount), []) ∧
    createPositionV1GetInstruction okCp1Env fixWalletDisconnected fixCp1Form
      = (invalidResult (govOf fixCp1Form.governedAccount), []) :=
  claim4_wallet_guard okAddLiqEnv okCp1Env fixWalletDisconnected
    fixAddLiqForm fixCp1Form (Or.inl (by decide))

/-- Witness for C6: a throwing lookup yields the fallback six, and a
parsed decimals field of nine yields nine. -/
theorem claim6_witness :
    (getMintDecimals errMintEnv pkA).1 = 6 ∧
    (getMintDecimals mint9Env pkA).1 = 9 :=
  ⟨((claim6_getMintDecimals_fallback errMintEnv pkA).2 pkA (by decide)).1
      "network unavailable" rfl,
   ((claim6_getMintDecimals_fallback mint9Env pkA).2 pkA
      (by decide)).2.2.2.2 9 rfl⟩

/-- Witness for C7: a successful run of the filtered CreatePosition
variant on an SDK transaction containing a compute budget instruction
reports only non compute budget instructions. -/
theorem claim7_witness :
    ∃ ixs : List Instruction,
      (createPositionV2GetInstruction okCp2Env fixWallet
          fixCp2Form).1.serializedInstruction ::
        (createPositionV2GetInstruction okCp2Env fixWallet
          fixCp2Form).1.additionalSerializedInstructions
        = ixs.map serializeInstructionToBase64 ∧
      ∀ ix ∈ ixs, ix.programId ≠ computeBudgetProgramId :=
  claim7_filtered_variant_no_compute_budget okCp2Env fixWallet fixCp2Form
    (by decide)

/-- Witness for C9: the concrete successful AddLiquidity run passes the
scaled quote amount as X and the scaled base amount as Y, and the
concrete CreatePosition run passes the base amount as X and the quote
amount as Y. -/
theorem claim9_witness :
    (∃ poolPk, parsePublicKey fixAddLiqForm.dlmmPoolAddress = some poolPk ∧
      computeBaseUnitAmount fixAddLiqForm.quoteToken
        (getMintDecimals okAddLiqEnv.mint poolPk).1
        = Except.ok fixAddLiqArgs.totalXAmount ∧
      computeBaseUnitAmount fixAddLiqForm.baseToken
        (getMintDecimals okAddLiqEnv.mint poolPk).1
        = Except.ok fixAddLiqArgs.totalYAmount) ∧
    bnOfNumber fixCp2Form.baseTokenAmount
      = Except.ok fixInitPosArgs.totalXAmount ∧
    bnOfNumber fixCp2Form.quoteTokenAmount
      = Except.ok fixInitPosArgs.totalYAmount :=
  ⟨(claim9_amount_argument_mapping okAddLiqEnv okCp2Env fixWallet fixWallet
      fixAddLiqForm fixCp2Form).1 fixAddLiqArgs (by decide),
   (claim9_amount_argument_mapping okAddLiqEnv okCp2Env fixWallet fixWallet
      fixAddLiqForm fixCp2Form).2 fixInitPosArgs (by decide)⟩

/-- Witness for C10: instantiating the removal argument characterization
on the concrete run whose found position has no bin data. -/
theorem claim10_witness :
    emptyBinsArgs.bps
      = (emptyBinsArgs.binIds.map (fun _ => (10000 : Int))).head? ∧
    (emptyBinsArgs.binIds ≠ [] → emptyBinsArgs.bps = some 10000) ∧
    (∃ userPk positions pos,
      walletPublicKey fixWallet = some userPk ∧
      emptyBinsRemEnv.getPositionsByUserAndLbPair userPk
        = Except.ok positions ∧
      pos ∈ positions ∧ emptyBinsArgs.binIds = pos.positionBinData) ∧
    (∀ binIds2 bps2,
      removeLiquidityV1GetInstruction emptyBinsRemEnv fixWallet
        { fixRemForm with
            binIds := binIds2
            liquiditiesBpsToRemove := bps2 }
        = removeLiquidityV1GetInstruction emptyBinsRemEnv fixWallet
            fixRemForm) :=
  claim10_removal_args emptyBinsRemEnv fixWallet fixRemForm emptyBinsArgs
    (by decide)
